import Mathlib

/-!
# Verification of the `nq` element-collection library

A shallow embedding of `src/nq.js`: the selector resolver (`nq` / `Query`
constructor), the chainable collection operations (class toggling, attribute
and content access, the insertion family, event binding) and form
serialization, together with models of the host (DOM) primitives the
library orchestrates.  Machine behaviour of the host (JavaScript semantics
such as `Array.from` on a plain element, `setAttribute` stringification,
`addEventListener`/`removeEventListener` bookkeeping and event dispatch) is
modelled explicitly next to each definition.
-/

/-- A JavaScript value as it can be passed for an attribute value or an
event-listener `options` argument.  `undefined` is represented at call
sites by `Option.none`, so the defined values are strings, (integral)
numbers, `null` and booleans. -/
inductive JSVal where
  | str (s : String)
  | num (n : Int)
  | null
  | bool (b : Bool)
deriving DecidableEq, Repr

/-- JavaScript `ToString` for the modelled values, as applied by the host
`setAttribute` when it stringifies its second argument. -/
def JSVal.toJsString : JSVal → String
  | .str s => s
  | .num n => toString n
  | .null => "null"
  | .bool b => if b then "true" else "false"

/-! ## Form serialization model (`serialize` / `serializeArray`)

The serialization methods read only the form-control facing properties of
the collection's elements (`name`, `disabled`, `type`, `checked`, `value`,
`options`), so form controls are modelled by a record of exactly those
properties. -/

/-- An `<option>` inside a multiple-select control: the two properties the
source reads (`selected`, `value`). -/
structure SelectOption where
  selected : Bool
  value : String
deriving DecidableEq, Repr

/-- A form control as read by `serialize`/`serializeArray`.  `elemType`
models the JavaScript `type` property (`type` is a Lean keyword).  A
missing/empty `name` is the empty string (the source only tests its
truthiness). -/
structure FormElem where
  name : String
  disabled : Bool
  elemType : String
  checked : Bool
  value : String
  options : List SelectOption
deriving DecidableEq, Repr

/-- A `{ name, value }` record as pushed by `serializeArray`. -/
structure FormPair where
  name : String
  value : String
deriving DecidableEq, Repr

/-- Hexadecimal digit (uppercase), used by the percent-encoder. -/
def hexDigit (n : Nat) : Char :=
  if n < 10 then Char.ofNat (48 + n) else Char.ofNat (55 + n)

/-- Percent-encoding of a single byte, `"%XY"`. -/
def encodeByte (b : UInt8) : String :=
  "%" ++ String.singleton (hexDigit (b.toNat / 16)) ++ String.singleton (hexDigit (b.toNat % 16))

/-- The characters `encodeURIComponent` leaves unescaped:
`A–Z a–z 0–9 - _ . ! ~ * ' ( )`. -/
def isUnreservedURIChar (c : Char) : Bool :=
  c.isAlphanum || ([Char.ofNat 45, Char.ofNat 95, Char.ofNat 46, Char.ofNat 33,
    Char.ofNat 126, Char.ofNat 42, Char.ofNat 39, Char.ofNat 40, Char.ofNat 41]).contains c

/-- Host primitive `encodeURIComponent`: unreserved characters pass
through, every other character is replaced by the percent-encoding of its
UTF-8 bytes. -/
def encodeURIComponent (s : String) : String :=
  String.join (s.data.map (fun c =>
    if isUnreservedURIChar c then String.singleton c
    else String.join (((String.singleton c).toUTF8.toList).map encodeByte)))

/-! ## Selector resolver (`nq` and the `Query` constructor)

`nq(selector)` classifies its input by `typeof`/`instanceof` and hands the
result to `new Query(nodes)`, which normalizes it via
`nodes.length === 1 ? [nodes[0]] : Array.from(nodes)`.  The elements here
are *plain* elements: they carry no own `length` property and no indexed
properties, and `Element` is not iterable, so the JavaScript reads
`element.length` (undefined) and `Array.from(element)` (the array-like
path with `ToLength(undefined) = 0`, hence `[]`) are modelled
accordingly. -/

/-- An element reference as seen by the resolver: an identity, its
`tagName`, and — for `<form>` elements — the `elements` collection of
form-associated controls. -/
inductive RElem where
  | mk (id : Nat) (tagName : String) (formControls : List RElem)

/-- The element's `tagName` property. -/
def RElem.tagName : RElem → String
  | .mk _ t _ => t

/-- The element's `elements` collection (meaningful for `<form>`). -/
def RElem.formControls : RElem → List RElem
  | .mk _ _ cs => cs

/-- The possible arguments of `nq`, classified the way the source does:
selector string, a single `HTMLElement`, a `NodeList`, an
`HTMLCollection`, or anything else (which `nq` leaves unhandled). -/
inductive NqInput where
  | str (s : String)
  | element (e : RElem)
  | nodeList (es : List RElem)
  | htmlCollection (es : List RElem)
  | other

/-- The value reaching the `Query` constructor: either a bare element
passed straight through, or a list-like (`NodeList`, `HTMLCollection`,
`form.elements`). -/
inductive QueryArg where
  | elem (e : RElem)
  | elems (es : List RElem)

/-- The JavaScript read `nodes.length` on the constructor argument:
`some` the item count for a list-like, `none` (undefined) for a plain
element, which has no `length` property. -/
def QueryArg.lengthVal : QueryArg → Option Nat
  | .elem _ => none
  | .elems es => some es.length

/-- The JavaScript read `nodes[0]`: the first item of a list-like,
undefined for a plain element (no indexed properties). -/
def QueryArg.item0 : QueryArg → Option RElem
  | .elem _ => none
  | .elems es => es.head?

/-- The JavaScript call `Array.from(nodes)`: the items of a list-like; a
plain element is not iterable and has no `length`, so the array-like
conversion uses `ToLength(undefined) = 0` and yields `[]`. -/
def QueryArg.arrayFrom : QueryArg → List RElem
  | .elem _ => []
  | .elems es => es

/-- `new Query(nodes)`:
`this.nodes = nodes.length === 1 ? [nodes[0]] : Array.from(nodes)`.
(When the test succeeds the argument is list-like with one item, so
`item0` is that item.) -/
def queryNodes (arg : QueryArg) : List RElem :=
  if arg.lengthVal = some 1 then
    (arg.item0.map (fun e => [e])).getD []
  else
    arg.arrayFrom

/-- `nq(selector)`: strings go through `document.querySelectorAll`
(modelled by the host parameter `querySelectorAll`); an `HTMLElement`,
`NodeList` or `HTMLCollection` is handed to `Query`, with a `<form>`
element replaced by its `elements` collection (a `NodeList`/
`HTMLCollection` has no `tagName`, so only the bare-element case can take
that branch); any other input falls through — `nq` returns undefined
(`none`). -/
def nq (querySelectorAll : String → List RElem) : NqInput → Option (List RElem)
  | .str s => some (queryNodes (.elems (querySelectorAll s)))
  | .element e =>
      some (queryNodes (if e.tagName = "FORM" then .elems e.formControls else .elem e))
  | .nodeList es => some (queryNodes (.elems es))
  | .htmlCollection es => some (queryNodes (.elems es))
  | .other => none

namespace Query

/-- The loop body of `serializeArray` for one element: the `{name, value}`
records pushed for `element`.  Mirrors the source guard
`element.name && !element.disabled &&
['file','reset','submit','button'].indexOf(element.type) === -1`, the
`select-multiple` option loop, and the checkable-control test
`(element.type !== 'checkbox' && element.type !== 'radio') || element.checked`. -/
def serializeArrayEntry (element : FormElem) : List FormPair :=
  if element.name != "" && !element.disabled
      && !((["file", "reset", "submit", "button"]).contains element.elemType) then
    if element.elemType == "select-multiple" then
      (element.options.filter (·.selected)).map (fun option => ⟨element.name, option.value⟩)
    else if (element.elemType != "checkbox" && element.elemType != "radio") || element.checked then
      [⟨element.name, element.value⟩]
    else []
  else []

/-- `serializeArray()`: the concatenation, in element order, of the records
pushed for each element of the collection. -/
def serializeArray (nodes : List FormElem) : List FormPair :=
  nodes.flatMap serializeArrayEntry

/-- The loop body of `serialize` for one element: the
`encodeURIComponent(name) + '=' + encodeURIComponent(value)` strings pushed
for `element`.  Same guards as `serializeArrayEntry`. -/
def serializeEntry (element : FormElem) : List String :=
  if element.name != "" && !element.disabled
      && !((["file", "reset", "submit", "button"]).contains element.elemType) then
    if element.elemType == "select-multiple" then
      (element.options.filter (·.selected)).map (fun option =>
        encodeURIComponent element.name ++ "=" ++ encodeURIComponent option.value)
    else if (element.elemType != "checkbox" && element.elemType != "radio") || element.checked then
      [encodeURIComponent element.name ++ "=" ++ encodeURIComponent element.value]
    else []
  else []

/-- `serialize()`: the pushed strings joined with `'&'`
(`formElements.join('&')`). -/
def serialize (nodes : List FormElem) : String :=
  String.intercalate "&" (nodes.flatMap serializeEntry)

end Query

/-! ## Host document tree model

The collection methods orchestrate a host DOM through a small primitive
set (§6 of the design): element creation, attribute get/set, class-set
add/remove/toggle, child/sibling insertion and removal, markup insertion.
The tree is a store from node ids to node records plus a fresh-id counter;
`Dom.WF` says every id at or above the counter is unallocated. -/

/-- The per-node record: tag, attribute list (unique keys, insertion
order), class set (as an ordered list without duplicates), rendered text
(`innerText`), inner markup (`innerHTML`, kept as an opaque string — the
host's subtree serialization is not modelled), child ids in order, and
parent id. -/
structure NodeData where
  tag : String := ""
  attrs : List (String × String) := []
  classes : List String := []
  text : String := ""
  innerHTML : String := ""
  children : List Nat := []
  parent : Option Nat := none
deriving DecidableEq, Repr

/-- The host document: a node store and the next fresh node id. -/
structure Dom where
  map : Nat → Option NodeData
  nextId : Nat

/-- Well-formedness: ids at or above `nextId` are unallocated. -/
def Dom.WF (d : Dom) : Prop :=
  ∀ n, d.nextId ≤ n → d.map n = none

/-- Overwrite the record of node `n`. -/
def Dom.setNode (d : Dom) (n : Nat) (nd : NodeData) : Dom :=
  ⟨fun m => if m = n then some nd else d.map m, d.nextId⟩

/-- Update the record of node `n` if it is allocated; no-op otherwise. -/
def Dom.modifyNode (d : Dom) (n : Nat) (f : NodeData → NodeData) : Dom :=
  match d.map n with
  | some nd => d.setNode n (f nd)
  | none => d

/-- Allocate a fresh node with record `nd`; returns the new document and
the new node's id. -/
def Dom.addFresh (d : Dom) (nd : NodeData) : Dom × Nat :=
  (⟨fun m => if m = d.nextId then some nd else d.map m, d.nextId + 1⟩, d.nextId)

/-- Host primitive `document.createElement(tagName)`: a fresh element
with no attributes, children or parent. -/
def Dom.createElement (d : Dom) (tagName : String) : Dom × Nat :=
  d.addFresh { tag := tagName }

/-- Set key `k` to `v` in an attribute list: replace the existing entry
for `k`, else append. -/
def setKV (l : List (String × String)) (k v : String) : List (String × String) :=
  match l with
  | [] => [(k, v)]
  | kv :: t => if kv.1 = k then (k, v) :: t else kv :: setKV t k v

/-- Host primitive `setAttribute` (the value is already stringified by
the caller). A no-op on an unallocated id (host nodes always exist). -/
def Dom.setAttribute (d : Dom) (n : Nat) (k v : String) : Dom :=
  d.modifyNode n (fun nd => { nd with attrs := setKV nd.attrs k v })

/-- Host primitive `getAttribute`: the stored value, or `none` (null)
when the attribute is absent. -/
def Dom.getAttribute (d : Dom) (n : Nat) (k : String) : Option String :=
  match d.map n with
  | some nd => nd.attrs.lookup k
  | none => none

/-- Host primitive `classList.add`: no-op when present. -/
def Dom.classListAdd (d : Dom) (n : Nat) (c : String) : Dom :=
  d.modifyNode n (fun nd =>
    if c ∈ nd.classes then nd else { nd with classes := nd.classes ++ [c] })

/-- Host primitive `classList.remove`: no-op when absent. -/
def Dom.classListRemove (d : Dom) (n : Nat) (c : String) : Dom :=
  d.modifyNode n (fun nd => { nd with classes := nd.classes.filter (· ≠ c) })

/-- Host primitive `classList.toggle`. -/
def Dom.classListToggle (d : Dom) (n : Nat) (c : String) : Dom :=
  d.modifyNode n (fun nd =>
    if c ∈ nd.classes then { nd with classes := nd.classes.filter (· ≠ c) }
    else { nd with classes := nd.classes ++ [c] })

/-- The node's `children` id list (empty for an unallocated id). -/
def Dom.childrenOf (d : Dom) (n : Nat) : List Nat :=
  match d.map n with
  | some nd => nd.children
  | none => []

/-- The node's `parentNode` (null for an unallocated id). -/
def Dom.parentOf (d : Dom) (n : Nat) : Option Nat :=
  match d.map n with
  | some nd => nd.parent
  | none => none

/-- The node's `tagName`. -/
def Dom.tagOf (d : Dom) (n : Nat) : String :=
  match d.map n with
  | some nd => nd.tag
  | none => ""

/-- The node's rendered text (`innerText`). -/
def Dom.textOf (d : Dom) (n : Nat) : String :=
  match d.map n with
  | some nd => nd.text
  | none => ""

/-- The node's `firstChild` (null when childless). -/
def Dom.firstChild (d : Dom) (n : Nat) : Option Nat :=
  (d.childrenOf n).head?

/-- The sibling right after `n` in list `l`. -/
def nextAfter : List Nat → Nat → Option Nat
  | [], _ => none
  | [_], _ => none
  | a :: b :: t, n => if a = n then some b else nextAfter (b :: t) n

/-- The node's `nextSibling`: the entry after `n` in its parent's child
list (null for the last child or a parentless node). -/
def Dom.nextSibling (d : Dom) (n : Nat) : Option Nat :=
  match d.parentOf n with
  | none => none
  | some p => nextAfter (d.childrenOf p) n

/-- Insert `x` into `l` right before `ref`; with `ref = none` (null)
append at the end, matching `insertBefore`'s null-reference behaviour.
(An absent reference would make the host throw `NotFoundError`; the
library only ever passes an actual child or null.) -/
def insertAt (l : List Nat) (ref : Option Nat) (x : Nat) : List Nat :=
  match ref with
  | none => l ++ [x]
  | some r =>
    match l with
    | [] => [x]
    | a :: t => if a = r then x :: a :: t else a :: insertAt t (some r) x

/-- Host primitive `parent.insertBefore(x, ref)`: place `x` among `p`'s
children before `ref` (or last for null `ref`) and set `x`'s parent.
(The library only inserts freshly created, parentless nodes, so the
host's re-parenting detach step never has work to do and is not
modelled.) -/
def Dom.insertBefore (d : Dom) (p : Nat) (x : Nat) (ref : Option Nat) : Dom :=
  (d.modifyNode p (fun nd => { nd with children := insertAt nd.children ref x })).modifyNode
    x (fun nd => { nd with parent := some p })

/-- Host primitive `parent.appendChild(x)` = `insertBefore(x, null)`. -/
def Dom.appendChild (d : Dom) (p : Nat) (x : Nat) : Dom :=
  d.insertBefore p x none

/-- Host primitive `parent.removeChild(x)`: detach `x` from `p`. -/
def Dom.removeChild (d : Dom) (p : Nat) (x : Nat) : Dom :=
  (d.modifyNode p (fun nd => { nd with children := nd.children.filter (· ≠ x) })).modifyNode
    x (fun nd => { nd with parent := none })

/-- A parsed markup fragment node as produced by the host's fragment
parser: tag, attributes and rendered text.  (Flat fragments — enough for
the markup the library's callers are specified with; nesting plays no
role in any claim.) -/
structure Tmpl where
  tag : String
  attrs : List (String × String) := []
  text : String := ""
deriving DecidableEq, Repr

/-- Materialize a parsed fragment node as a fresh tree node. -/
def Dom.createFromTmpl (d : Dom) (t : Tmpl) : Dom × Nat :=
  d.addFresh { tag := t.tag, attrs := t.attrs, text := t.text }

/-- Materialize and insert a list of fragment nodes, in order, as
children of `p` before `ref` (all before the same reference, so they end
up adjacent and in fragment order, as a host fragment insertion does). -/
def insertTmpls (d : Dom) (p : Nat) (ref : Option Nat) (ts : List Tmpl) : Dom :=
  ts.foldl (fun d t =>
    let created := d.createFromTmpl t
    created.1.insertBefore p created.2 ref) d

/-- The errors surfaced by the modelled operations: a JavaScript
`TypeError` (method call on `null`) and the DOM
`NoModificationAllowedError`. -/
inductive JSError where
  | typeError
  | noModificationAllowed
deriving DecidableEq, Repr

/-- The four insertion positions of `insertAdjacentHTML`. -/
inductive AdjacentPosition where
  | beforebegin
  | afterbegin
  | beforeend
  | afterend
deriving DecidableEq, Repr

/-- Host primitive `element.insertAdjacentHTML(position, markup)`
(WHATWG DOM): parse `markup` with the host fragment parser (the
parameter `parse`) and insert the resulting nodes at `position`.  For
`beforebegin`/`afterend` the element's parent is the insertion context;
if the element has no parent the host throws
`NoModificationAllowedError`. -/
def Dom.insertAdjacentHTML (parse : String → List Tmpl) (d : Dom) (pos : AdjacentPosition)
    (element : Nat) (markup : String) : Except JSError Dom :=
  match pos with
  | .beforebegin =>
    match d.parentOf element with
    | none => .error .noModificationAllowed
    | some p => .ok (insertTmpls d p (some element) (parse markup))
  | .afterend =>
    match d.parentOf element with
    | none => .error .noModificationAllowed
    | some p => .ok (insertTmpls d p (d.nextSibling element) (parse markup))
  | .afterbegin => .ok (insertTmpls d element (d.firstChild element) (parse markup))
  | .beforeend => .ok (insertTmpls d element none (parse markup))

/-! ## The collection methods

Each method takes the document (and, for event methods, the listener
state) together with the collection's `nodes` list, fans out over the
nodes exactly as the source loop does, and returns the collection
(`this`, i.e. the same `nodes`) for chaining.  Methods whose loop body
can throw return `Except JSError`. -/

/-- The argument of the insertion family as classified by the source:
a string (markup or tag name), an element reference, or anything else
(left unhandled, per-element no-op). -/
inductive InsertInput where
  | str (s : String)
  | elemRef (n : Nat)
  | other

/-- JavaScript `String.prototype.trim` on the character sequence. -/
def trimChars (l : List Char) : List Char :=
  ((l.dropWhile Char.isWhitespace).reverse.dropWhile Char.isWhitespace).reverse

namespace Query

/-- `isHTMLString(input)`:
`typeof input === 'string' && input.trim().startsWith('<') && input.trim().endsWith('>')`.
With the one-character affixes this is: the trimmed string begins with
`<` (code point 60) and ends with `>` (code point 62). -/
def isHTMLString : InsertInput → Bool
  | .str s =>
    (trimChars s.data).head? == some (Char.ofNat 60)
      && (trimChars s.data).getLast? == some (Char.ofNat 62)
  | _ => false

/-- The block
`if (attributes) { for (const attr in attributes) newElement.setAttribute(attr, attributes[attr]) }`
shared by the tag-name branch of all four insertion methods.  The
attribute object is modelled as an ordered key/value list; `setAttribute`
stringifies each value. -/
def setAttributesLoop (d : Dom) (newElement : Nat)
    (attributes : Option (List (String × JSVal))) : Dom :=
  match attributes with
  | some attrList =>
    attrList.foldl (fun d kv => d.setAttribute newElement kv.1 kv.2.toJsString) d
  | none => d

/-- `addClass(className)`. -/
def addClass (d : Dom) (nodes : List Nat) (className : String) : Dom × List Nat :=
  (nodes.foldl (fun d node => d.classListAdd node className) d, nodes)

/-- `removeClass(className)`. -/
def removeClass (d : Dom) (nodes : List Nat) (className : String) : Dom × List Nat :=
  (nodes.foldl (fun d node => d.classListRemove node className) d, nodes)

/-- `toggleClass(className)`. -/
def toggleClass (d : Dom) (nodes : List Nat) (className : String) : Dom × List Nat :=
  (nodes.foldl (fun d node => d.classListToggle node className) d, nodes)

/-- The return value of the dual-mode accessors `attr`/`html`/`text`:
write mode returns `this` (the document after the fan-out plus the same
`nodes`), read mode returns the read value (`none` standing for
null). -/
inductive GetSet where
  | chain (d : Dom) (nodes : List Nat)
  | value (v : Option String)

/-- `attr(attr, value)`: write mode when `value !== undefined`
(`setAttribute` on every node, stringified, returning `this`); read mode
otherwise (`getAttribute` of the first node, or null on an empty
collection). -/
def attr (d : Dom) (nodes : List Nat) (a : String) (value : Option JSVal) : GetSet :=
  match value with
  | some v => .chain (nodes.foldl (fun d node => d.setAttribute node a v.toJsString) d) nodes
  | none =>
    .value (match nodes with
      | [] => none
      | node :: _ => d.getAttribute node a)

/-- `html(content)`: write mode sets `innerHTML` on every node, read
mode returns the first node's `innerHTML` or null on an empty
collection. -/
def html (d : Dom) (nodes : List Nat) (content : Option String) : GetSet :=
  match content with
  | some c =>
    .chain (nodes.foldl (fun d node =>
      d.modifyNode node (fun nd => { nd with innerHTML := c })) d) nodes
  | none =>
    .value (match nodes with
      | [] => none
      | node :: _ => some (match d.map node with | some nd => nd.innerHTML | none => ""))

/-- `text(content)`: same dual-mode rule over `innerText`. -/
def text (d : Dom) (nodes : List Nat) (content : Option String) : GetSet :=
  match content with
  | some c =>
    .chain (nodes.foldl (fun d node =>
      d.modifyNode node (fun nd => { nd with text := c })) d) nodes
  | none =>
    .value (match nodes with
      | [] => none
      | node :: _ => some (d.textOf node))

/-- The loop body of `before` for one element: markup strings go
through `insertAdjacentHTML('beforebegin')`; other strings create an
element by tag name, set the supplied attributes, and run
`node.parentNode.insertBefore(newElement, node)` — a `TypeError` when
`parentNode` is null; non-strings are skipped. -/
def beforeStep (parse : String → List Tmpl) (input : InsertInput)
    (attributes : Option (List (String × JSVal))) (d : Dom) (node : Nat) :
    Except JSError Dom :=
  match input with
  | .str s =>
    if isHTMLString (.str s) then
      d.insertAdjacentHTML parse .beforebegin node s
    else
      let created := d.createElement s
      let d2 := setAttributesLoop created.1 created.2 attributes
      match d2.parentOf node with
      | none => .error .typeError
      | some p => .ok (d2.insertBefore p created.2 (some node))
  | _ => .ok d

/-- `before(input, attributes)`: the loop body fanned out over the
collection, returning `this`. -/
def before (parse : String → List Tmpl) (d : Dom) (nodes : List Nat)
    (input : InsertInput) (attributes : Option (List (String × JSVal))) :
    Except JSError (Dom × List Nat) :=
  (nodes.foldlM (beforeStep parse input attributes) d).map (fun d => (d, nodes))

/-- The loop body of `after` for one element: markup strings go through
`insertAdjacentHTML('afterend')`; tag names run
`node.parentNode.insertBefore(newElement, node.nextSibling)` — a
`TypeError` when `parentNode` is null. -/
def afterStep (parse : String → List Tmpl) (input : InsertInput)
    (attributes : Option (List (String × JSVal))) (d : Dom) (node : Nat) :
    Except JSError Dom :=
  match input with
  | .str s =>
    if isHTMLString (.str s) then
      d.insertAdjacentHTML parse .afterend node s
    else
      let created := d.createElement s
      let d2 := setAttributesLoop created.1 created.2 attributes
      match d2.parentOf node with
      | none => .error .typeError
      | some p => .ok (d2.insertBefore p created.2 (d2.nextSibling node))
  | _ => .ok d

/-- `after(input, attributes)`: the loop body fanned out over the
collection, returning `this`. -/
def after (parse : String → List Tmpl) (d : Dom) (nodes : List Nat)
    (input : InsertInput) (attributes : Option (List (String × JSVal))) :
    Except JSError (Dom × List Nat) :=
  (nodes.foldlM (afterStep parse input attributes) d).map (fun d => (d, nodes))

/-- The loop body of `append` for one element: markup strings go
through `insertAdjacentHTML('beforeend')`; tag names run
`parentNode.appendChild(newElement)` (the collection element itself is
the parent). -/
def appendStep (parse : String → List Tmpl) (input : InsertInput)
    (attributes : Option (List (String × JSVal))) (d : Dom) (parentNode : Nat) :
    Except JSError Dom :=
  match input with
  | .str s =>
    if isHTMLString (.str s) then
      d.insertAdjacentHTML parse .beforeend parentNode s
    else
      let created := d.createElement s
      let d2 := setAttributesLoop created.1 created.2 attributes
      Except.ok (d2.appendChild parentNode created.2)
  | _ => .ok d

/-- `append(input, attributes)`: the loop body fanned out over the
collection, returning `this`. -/
def append (parse : String → List Tmpl) (d : Dom) (nodes : List Nat)
    (input : InsertInput) (attributes : Option (List (String × JSVal))) :
    Except JSError (Dom × List Nat) :=
  (nodes.foldlM (appendStep parse input attributes) d).map (fun d => (d, nodes))

/-- The loop body of `prepend` for one element: markup strings go
through `insertAdjacentHTML('afterbegin')`; tag names run
`parentNode.insertBefore(newElement, parentNode.firstChild)`. -/
def prependStep (parse : String → List Tmpl) (input : InsertInput)
    (attributes : Option (List (String × JSVal))) (d : Dom) (parentNode : Nat) :
    Except JSError Dom :=
  match input with
  | .str s =>
    if isHTMLString (.str s) then
      d.insertAdjacentHTML parse .afterbegin parentNode s
    else
      let created := d.createElement s
      let d2 := setAttributesLoop created.1 created.2 attributes
      Except.ok (d2.insertBefore parentNode created.2 (d2.firstChild parentNode))
  | _ => .ok d

/-- `prepend(input, attributes)`: the loop body fanned out over the
collection, returning `this`. -/
def prepend (parse : String → List Tmpl) (d : Dom) (nodes : List Nat)
    (input : InsertInput) (attributes : Option (List (String × JSVal))) :
    Except JSError (Dom × List Nat) :=
  (nodes.foldlM (prependStep parse input attributes) d).map (fun d => (d, nodes))

/-- `remove()`: detach every node that currently has a parent
(`if (node.parentNode) node.parentNode.removeChild(node)`); the
collection keeps referencing the detached nodes. -/
def remove (d : Dom) (nodes : List Nat) : Dom × List Nat :=
  (nodes.foldl (fun d node =>
    match d.parentOf node with
    | some p => d.removeChild p node
    | none => d) d, nodes)

end Query

/-! ## Event model (`on` / `off` / `one`)

Listener bookkeeping is the host's: per node, an ordered list of
`(eventType, callback, capture)` registrations with the standard
add/remove semantics.  Callback values are either an opaque user handler
(identified by a number) or the `oneTimeHandler` closure built by `one`,
which captures the collection (`self`), the user handler and the raw
`options` argument.  Closure identity is structural here: distinct `one`
registrations in the claims use distinct handler ids, so structural
equality coincides with JavaScript function identity for everything
proved below. -/

/-- A JavaScript function value usable as an event listener. -/
inductive FuncVal where
  | user (h : Nat)
  | oneWrapper (selfNodes : List Nat) (handler : Nat) (options : Option Bool)
deriving DecidableEq, Repr

/-- The host's per-node listener lists. -/
abbrev EvState := Nat → List (String × FuncVal × Bool)

/-- Host primitive `addEventListener(type, callback, capture)`: appends
the registration unless an identical `(type, callback, capture)` triple
is already present. -/
def addEventListener (st : EvState) (n : Nat) (t : String) (f : FuncVal) (cap : Bool) :
    EvState :=
  fun m =>
    if m = n then
      if (t, f, cap) ∈ st n then st n else st n ++ [(t, f, cap)]
    else st m

/-- Host primitive `removeEventListener(type, callback, capture)`:
removes the matching registration. -/
def removeEventListener (st : EvState) (n : Nat) (t : String) (f : FuncVal) (cap : Bool) :
    EvState :=
  fun m => if m = n then (st n).filter (fun l => l ≠ (t, f, cap)) else st m

namespace Query

/-- `on(event, handler, options)`:
`node.addEventListener(event, handler, options || false)` on every node.
`options` is modelled as an optional capture flag; `options || false`
is `options.getD false`.  (`on` is a reserved token in Lean, hence the
name `onEvent`.) -/
def onEvent (st : EvState) (nodes : List Nat) (event : String) (handler : FuncVal)
    (options : Option Bool) : EvState × List Nat :=
  (nodes.foldl (fun st node => addEventListener st node event handler (options.getD false)) st,
    nodes)

/-- `off(event, listener, options)`:
`node.removeEventListener(event, listener, options || false)` on every
node. -/
def off (st : EvState) (nodes : List Nat) (event : String) (listener : FuncVal)
    (options : Option Bool) : EvState × List Nat :=
  (nodes.foldl (fun st node => removeEventListener st node event listener (options.getD false)) st,
    nodes)

/-- `one(event, handler, options)`: registers, via `on`'s fan-out, the
`oneTimeHandler` closure capturing `self` (the collection), the user
`handler` and the raw `options`. -/
def one (st : EvState) (nodes : List Nat) (event : String) (handler : Nat)
    (options : Option Bool) : EvState × List Nat :=
  onEvent st nodes event (.oneWrapper nodes handler options) options

/-- Invoking a callback with `this`/`currentTarget = target` for an event
of type `etype`: a user handler just runs (recorded as a
`(handler, target)` call); `oneTimeHandler` runs
`handler.call(this, event)` and then `self.off(event.type,
oneTimeHandler, options)` — the captured collection's `off`, which
removes the wrapper from *every* node of `selfNodes`. -/
def invokeListener (st : EvState) (target : Nat) (etype : String) :
    FuncVal → EvState × List (Nat × Nat)
  | .user h => (st, [(h, target)])
  | .oneWrapper selfNodes handler options =>
    ((off st selfNodes etype (.oneWrapper selfNodes handler options) options).1,
      [(handler, target)])

/-- Host event dispatch on a single node (no bubbling modelled; none of
the claims involve propagation): the listener list for the event type is
snapshotted, then each entry runs in order unless it has been removed
from the node in the meantime (WHATWG "removed" flag).  Returns the
final listener state and the user-handler calls `(handler, target)` in
invocation order. -/
def dispatch (st : EvState) (target : Nat) (etype : String) :
    EvState × List (Nat × Nat) :=
  (((st target).filter (fun l => l.1 == etype)).foldl
    (fun (acc : EvState × List (Nat × Nat)) l =>
      if l ∈ acc.1 target then
        let step := invokeListener acc.1 target etype l.2.1
        (step.1, acc.2 ++ step.2)
      else acc)
    (st, []))

end Query

/-! ## Concrete instances used by the claim checks -/

/-- A text input `name=a value=hello`. -/
def exTextInput : FormElem := ⟨"a", false, "text", false, "hello", []⟩

/-- An unchecked checkbox `name=b`. -/
def exCheckbox : FormElem := ⟨"b", false, "checkbox", false, "on", []⟩

/-- A checked radio `name=c value=yes`. -/
def exRadio : FormElem := ⟨"c", false, "radio", true, "yes", []⟩

/-- A plain `<div>` element reference. -/
def exDiv : RElem := .mk 0 "DIV" []

/-- A document with a single, parentless `<div>` (id 0). -/
def parentlessDom : Dom := ⟨fun n => if n = 0 then some { tag := "DIV" } else none, 1⟩

/-- A document with two parentless `<div>`s (ids 0 and 1). -/
def twoDivDom : Dom :=
  ⟨fun n => if n = 0 ∨ n = 1 then some { tag := "DIV" } else none, 2⟩

/-- A host fragment parser that parses `"<span>x</span>"` to one `span`
node with text `x` (and nothing else). -/
def parseSpanX : String → List Tmpl :=
  fun s => if s = "<span>x</span>" then [{ tag := "span", text := "x" }] else []

/-- A host fragment parser producing nothing. -/
def parseNothing : String → List Tmpl := fun _ => []

/-- No listeners registered anywhere. -/
def oneShotInit : EvState := fun _ => []

/-- The listener state after `one("click", handler#7)` on the
two-element collection `[1, 2]`. -/
def oneShotRegistered : EvState := (Query.one oneShotInit [1, 2] "click" 7 none).1

/-- State and call log after dispatching a click on element 1. -/
def oneShotAfterFirst : EvState × List (Nat × Nat) :=
  Query.dispatch oneShotRegistered 1 "click"

/-- One fan-out step of the tag-name/markup insertion: allocate a fresh
node with record `nd` and insert it relative to `node` as a new last
child.  Both branches of `append` reduce to this step (proof-layer
definition). -/
def freshInsertStep (nd : NodeData) (d : Dom) (node : Nat) : Dom :=
  let created := d.addFresh nd
  created.1.insertBefore node created.2 none

/-- Rendering of one `{name, value}` record as `serialize` encodes it. -/
def renderPair (p : FormPair) : String :=
  encodeURIComponent p.name ++ "=" ++ encodeURIComponent p.value

/-! ## Store lemmas -/

theorem Dom.eq_of {d1 d2 : Dom} (hm : ∀ n, d1.map n = d2.map n)
    (hn : d1.nextId = d2.nextId) : d1 = d2 := by
  cases d1; cases d2
  simp only [Dom.mk.injEq]
  exact ⟨funext hm, hn⟩

@[simp] theorem Dom.map_setNode (d : Dom) (n : Nat) (nd : NodeData) (m : Nat) :
    (d.setNode n nd).map m = if m = n then some nd else d.map m := rfl

@[simp] theorem Dom.nextId_setNode (d : Dom) (n : Nat) (nd : NodeData) :
    (d.setNode n nd).nextId = d.nextId := rfl

theorem Dom.map_modifyNode (d : Dom) (n : Nat) (f : NodeData → NodeData) (m : Nat) :
    (d.modifyNode n f).map m = if m = n then (d.map n).map f else d.map m := by
  by_cases hm : m = n
  · subst hm
    cases h : d.map m with
    | none => simp [Dom.modifyNode, h]
    | some nd => simp [Dom.modifyNode, h, Dom.setNode]
  · cases h : d.map n with
    | none => simp [Dom.modifyNode, h, hm]
    | some nd => simp [Dom.modifyNode, h, Dom.setNode, hm]

@[simp] theorem Dom.nextId_modifyNode (d : Dom) (n : Nat) (f : NodeData → NodeData) :
    (d.modifyNode n f).nextId = d.nextId := by
  unfold Dom.modifyNode
  cases d.map n <;> rfl

@[simp] theorem Dom.map_addFresh (d : Dom) (nd : NodeData) (m : Nat) :
    (d.addFresh nd).1.map m = if m = d.nextId then some nd else d.map m := rfl

@[simp] theorem Dom.nextId_addFresh (d : Dom) (nd : NodeData) :
    (d.addFresh nd).1.nextId = d.nextId + 1 := rfl

@[simp] theorem Dom.snd_addFresh (d : Dom) (nd : NodeData) :
    (d.addFresh nd).2 = d.nextId := rfl

theorem Dom.map_setAttribute (d : Dom) (n : Nat) (k v : String) (m : Nat) :
    (d.setAttribute n k v).map m =
      if m = n then (d.map n).map (fun nd => { nd with attrs := setKV nd.attrs k v })
      else d.map m :=
  Dom.map_modifyNode ..

@[simp] theorem Dom.nextId_setAttribute (d : Dom) (n : Nat) (k v : String) :
    (d.setAttribute n k v).nextId = d.nextId :=
  Dom.nextId_modifyNode ..

theorem Dom.parentOf_setAttribute (d : Dom) (n : Nat) (k v : String) (m : Nat) :
    (d.setAttribute n k v).parentOf m = d.parentOf m := by
  unfold Dom.parentOf
  rw [Dom.map_setAttribute]
  by_cases hm : m = n
  · subst hm
    cases h : d.map m <;> simp [h]
  · rw [if_neg hm]

theorem Dom.isSome_map_setAttribute (d : Dom) (n : Nat) (k v : String) (m : Nat) :
    ((d.setAttribute n k v).map m).isSome = (d.map m).isSome := by
  rw [Dom.map_setAttribute]
  by_cases hm : m = n
  · subst hm
    cases h : d.map m <;> simp [h]
  · rw [if_neg hm]

theorem lookup_setKV (l : List (String × String)) (k v : String) :
    (setKV l k v).lookup k = some v := by
  induction l with
  | nil => simp [setKV, List.lookup]
  | cons kv t ih =>
    by_cases h : kv.1 = k
    · simp [setKV, h, List.lookup]
    · have h2 : (k == kv.1) = false := beq_eq_false_iff_ne.mpr (Ne.symm h)
      simp only [setKV, if_neg h, List.lookup, h2]
      exact ih

theorem Dom.map_setAttribute_ne (d : Dom) (n : Nat) (k v : String) {m : Nat}
    (h : m ≠ n) : (d.setAttribute n k v).map m = d.map m := by
  rw [Dom.map_setAttribute, if_neg h]

theorem Dom.getAttribute_setAttribute_same (d : Dom) (n : Nat) (k v : String)
    (h : (d.map n).isSome = true) :
    (d.setAttribute n k v).getAttribute n k = some v := by
  obtain ⟨nd, hnd⟩ := Option.isSome_iff_exists.mp h
  unfold Dom.getAttribute
  rw [Dom.map_setAttribute, if_pos rfl, hnd]
  exact lookup_setKV nd.attrs k v

theorem Dom.getAttribute_setAttribute_ne (d : Dom) (n : Nat) (k v : String)
    {m : Nat} (h : m ≠ n) (a : String) :
    (d.setAttribute n k v).getAttribute m a = d.getAttribute m a := by
  unfold Dom.getAttribute
  rw [Dom.map_setAttribute_ne d n k v h]

/-- Fanning `setAttribute name value` out over a node list leaves nodes
outside the list untouched. -/
theorem map_foldl_setAttribute_not_mem (k s : String) :
    ∀ (l : List Nat) (d : Dom) {n : Nat}, n ∉ l →
      ((l.foldl (fun d node => d.setAttribute node k s) d).map n) = d.map n := by
  intro l
  induction l with
  | nil => intro d n _; rfl
  | cons a t ih =>
    intro d n hn
    rw [List.foldl_cons]
    rw [ih _ (fun hm => hn (List.mem_cons_of_mem a hm))]
    exact Dom.map_setAttribute_ne d a k s (fun h => hn (h ▸ List.mem_cons_self a t))

/-- After fanning `setAttribute name value` out over the collection,
every (allocated) member reads back `value`. -/
theorem getAttribute_foldl_setAttribute (k s : String) :
    ∀ (l : List Nat) (d : Dom) {n : Nat}, n ∈ l →
      (∀ m ∈ l, (d.map m).isSome = true) →
      ((l.foldl (fun d node => d.setAttribute node k s) d).getAttribute n k) = some s := by
  intro l
  induction l with
  | nil => intro d n hn _; cases hn
  | cons a t ih =>
    intro d n hn hex
    rw [List.foldl_cons]
    by_cases hnt : n ∈ t
    · exact ih _ hnt (fun m hm => by
        rw [Dom.isSome_map_setAttribute]
        exact hex m (List.mem_cons_of_mem a hm))
    · have hna : n = a := by
        rcases List.mem_cons.mp hn with h | h
        · exact h
        · exact absurd h hnt
      subst hna
      unfold Dom.getAttribute
      rw [map_foldl_setAttribute_not_mem k s t _ hnt]
      have := Dom.getAttribute_setAttribute_same d n k s (hex n (List.mem_cons_self n t))
      unfold Dom.getAttribute at this
      exact this

/-- Setting attributes (on the freshly created element) never changes any
node's parent. -/
theorem parentOf_setAttributesLoop (x : Nat)
    (attributes : Option (List (String × JSVal))) :
    ∀ (d : Dom) (m : Nat),
      (Query.setAttributesLoop d x attributes).parentOf m = d.parentOf m := by
  cases attributes with
  | none => intro d m; rfl
  | some attrList =>
    induction attrList with
    | nil => intro d m; rfl
    | cons kv t ih =>
      intro d m
      show ((kv :: t).foldl (fun d kv => d.setAttribute x kv.1 kv.2.toJsString) d).parentOf m = _
      rw [List.foldl_cons]
      have := ih (d.setAttribute x kv.1 kv.2.toJsString) m
      unfold Query.setAttributesLoop at this
      exact this.trans (Dom.parentOf_setAttribute ..)

/-- `createElement` does not give a parent to any node: a node that was
parentless (or unallocated) stays parentless. -/
theorem parentOf_createElement_of_none (d : Dom) (s : String) (m : Nat)
    (h : d.parentOf m = none) : ((d.createElement s).1).parentOf m = none := by
  unfold Dom.parentOf at h ⊢
  unfold Dom.createElement
  rw [Dom.map_addFresh]
  by_cases hm : m = d.nextId
  · rw [if_pos hm]
  · rw [if_neg hm]; exact h

/-- `Except.map` with a constant function agrees with projecting the pair
the insertion methods build (used to state membership preservation
without hypotheses). -/
theorem exceptMap_snd_eq {ns : List Nat} (x : Except JSError Dom) :
    ((x.map (fun d => (d, ns))).map (fun r => r.2))
      = ((x.map (fun d => (d, ns))).map (fun _ => ns)) := by
  cases x <;> rfl


/-- Per element, `serialize`'s pushed strings are exactly
`serializeArray`'s pushed records, rendered. -/
theorem serializeEntry_eq_map (element : FormElem) :
    Query.serializeEntry element = (Query.serializeArrayEntry element).map renderPair := by
  unfold Query.serializeEntry Query.serializeArrayEntry
  by_cases h1 : (element.name != "" && !element.disabled
      && !((["file", "reset", "submit", "button"]).contains element.elemType)) = true
  · rw [if_pos h1, if_pos h1]
    by_cases h2 : (element.elemType == "select-multiple") = true
    · rw [if_pos h2, if_pos h2, List.map_map]
      rfl
    · rw [if_neg h2, if_neg h2]
      by_cases h3 : ((element.elemType != "checkbox" && element.elemType != "radio")
          || element.checked) = true
      · rw [if_pos h3, if_pos h3]; rfl
      · rw [if_neg h3, if_neg h3]; rfl
  · rw [if_neg h1, if_neg h1]; rfl

/-- The full pushed-string list is the rendered record list. -/
theorem serialize_parts_eq_map (nodes : List FormElem) :
    nodes.flatMap Query.serializeEntry = (Query.serializeArray nodes).map renderPair := by
  unfold Query.serializeArray
  induction nodes with
  | nil => rfl
  | cons e t ih =>
    rw [List.flatMap_cons, List.flatMap_cons, List.map_append, ih, serializeEntry_eq_map]

/-! ## Claim checks -/

/-- C1: one-shot listeners are claimed to be per-element independent —
dispatching the event on one element of a two-element collection should
invoke that element's handler exactly once and leave the sibling's
one-shot listener registered, so that a later dispatch on the sibling
invokes its handler exactly once.  Evaluating the code at that scenario:
after `one("click", handler)` on `[1, 2]` both elements carry the
wrapper; clicking element 1 invokes the handler exactly once on element
1, but the wrapper's `self.off` fan-out strips the wrapper from element 2
as well, so the subsequent click on element 2 invokes nothing. -/
theorem c1_one_shot_fires_once_but_clears_siblings :
    oneShotRegistered 2 = [("click", FuncVal.oneWrapper [1, 2] 7 none, false)] ∧
    oneShotAfterFirst.2 = [(7, 1)] ∧
    oneShotAfterFirst.1 2 = [] ∧
    (Query.dispatch oneShotAfterFirst.1 2 "click").2 = [] :=
  ⟨by decide, by decide, by decide, by decide⟩

/-- C2: the claim says a single non-form element resolves to a collection
holding exactly that element.  Evaluating the code on a plain `<div>`:
the bare element's `length` is undefined, so the `Query` constructor
falls to `Array.from(element)`, which is `[]` — the resolved collection
is empty, not `[element]`. -/
theorem c2_single_element_resolves_to_empty :
    nq (fun _ => []) (.element exDiv) = some [] ∧
    nq (fun _ => []) (.element exDiv) ≠ some [exDiv] :=
  ⟨rfl, by simp [nq, exDiv, RElem.tagName, queryNodes, QueryArg.lengthVal, QueryArg.arrayFrom]⟩

/-- C3: on the form collection text-input `a=hello`, unchecked checkbox
`b`, checked radio `c=yes`, `serializeArray()` returns exactly
`[{a,hello}, {c,yes}]` in order; and an element contributes records only
if its name is non-empty, it is not disabled, and its type is none of
`file`, `reset`, `submit`, `button`. -/
theorem c3_serializeArray_example_and_eligibility :
    Query.serializeArray [exTextInput, exCheckbox, exRadio]
        = [⟨"a", "hello"⟩, ⟨"c", "yes"⟩] ∧
    ∀ element : FormElem, Query.serializeArray [element] ≠ [] →
      element.name ≠ "" ∧ element.disabled = false ∧
        element.elemType ∉ ["file", "reset", "submit", "button"] := by
  refine ⟨by decide, ?_⟩
  intro element h
  have h' : Query.serializeArrayEntry element ≠ [] := by
    simpa [Query.serializeArray] using h
  by_cases h1 : (element.name != "" && !element.disabled
      && !((["file", "reset", "submit", "button"]).contains element.elemType)) = true
  · have hname : element.name ≠ "" := by
      have := h1
      simp only [Bool.and_eq_true, bne_iff_ne, ne_eq] at this
      exact this.1.1
    have hdis : element.disabled = false := by
      simp only [Bool.and_eq_true, Bool.not_eq_true'] at h1
      exact h1.1.2
    have hty : element.elemType ∉ ["file", "reset", "submit", "button"] := by
      simp only [Bool.and_eq_true, Bool.not_eq_true'] at h1
      intro hmem
      have := h1.2
      simp_all
    exact ⟨hname, hdis, hty⟩
  · exact absurd (by unfold Query.serializeArrayEntry; rw [if_neg h1]) h'

/-- C3 witness: the eligibility conditions instantiated at the concrete
text input, obtained by applying the claim theorem. -/
theorem c3_witness :
    Query.serializeArray [exTextInput] ≠ [] ∧
      (exTextInput.name ≠ "" ∧ exTextInput.disabled = false ∧
        exTextInput.elemType ∉ ["file", "reset", "submit", "button"]) :=
  ⟨by decide, c3_serializeArray_example_and_eligibility.2 exTextInput (by decide)⟩

/-- C4: `serialize()` returns exactly `serializeArray()`'s record
sequence, each record rendered as percent-encoded name `=` percent-encoded
value, joined with `&`, in the same order — on every collection. -/
theorem c4_serialize_refines_serializeArray (nodes : List FormElem) :
    Query.serialize nodes
      = String.intercalate "&" ((Query.serializeArray nodes).map
          (fun p => encodeURIComponent p.name ++ "=" ++ encodeURIComponent p.value)) := by
  unfold Query.serialize
  rw [serialize_parts_eq_map]
  rfl

/-- C6: on an empty collection, read-mode `attr(name)` returns null,
mutators such as `addClass` return the same still-empty collection, and
every modelled operation of the public surface completes without an
error (loops simply run zero times; the insertion family returns `ok`,
serialization returns the empty results). -/
theorem c6_empty_collection_safety (d : Dom) (st : EvState) (parse : String → List Tmpl)
    (a c s ev : String) (input : InsertInput) (attributes : Option (List (String × JSVal)))
    (v : JSVal) (f : FuncVal) (h : Nat) (options : Option Bool) :
    Query.attr d [] a none = .value none ∧
    Query.attr d [] a (some v) = .chain d [] ∧
    Query.addClass d [] c = (d, []) ∧
    Query.removeClass d [] c = (d, []) ∧
    Query.toggleClass d [] c = (d, []) ∧
    Query.html d [] none = .value none ∧
    Query.html d [] (some s) = .chain d [] ∧
    Query.text d [] none = .value none ∧
    Query.text d [] (some s) = .chain d [] ∧
    Query.before parse d [] input attributes = .ok (d, []) ∧
    Query.after parse d [] input attributes = .ok (d, []) ∧
    Query.append parse d [] input attributes = .ok (d, []) ∧
    Query.prepend parse d [] input attributes = .ok (d, []) ∧
    Query.remove d [] = (d, []) ∧
    Query.onEvent st [] ev f options = (st, []) ∧
    Query.off st [] ev f options = (st, []) ∧
    Query.one st [] ev h options = (st, []) ∧
    Query.serialize [] = "" ∧
    Query.serializeArray [] = [] :=
  ⟨rfl, rfl, rfl, rfl, rfl, rfl, rfl, rfl, rfl, rfl, rfl, rfl, rfl, rfl, rfl, rfl, rfl,
    rfl, rfl⟩

/-- C9: no operation changes the collection's own member list — every
modelled operation returns (or, for the fallible insertion family,
returns whenever it returns at all) the very same `nodes` sequence:
length, order and identities are preserved, and `remove` keeps the
now-detached ids in the list.  (`serialize`/`serializeArray` are pure
reads of the elements and return derived values, not a collection.) -/
theorem c9_membership_immutable (d : Dom) (st : EvState) (parse : String → List Tmpl)
    (nodes : List Nat) (a c s ev : String) (input : InsertInput)
    (attributes : Option (List (String × JSVal))) (v : JSVal) (f : FuncVal) (h : Nat)
    (options : Option Bool) :
    (Query.addClass d nodes c).2 = nodes ∧
    (Query.removeClass d nodes c).2 = nodes ∧
    (Query.toggleClass d nodes c).2 = nodes ∧
    (∃ d1, Query.attr d nodes a (some v) = .chain d1 nodes) ∧
    (∃ d2, Query.html d nodes (some s) = .chain d2 nodes) ∧
    (∃ d3, Query.text d nodes (some s) = .chain d3 nodes) ∧
    ((Query.before parse d nodes input attributes).map (fun r => r.2)
      = (Query.before parse d nodes input attributes).map (fun _ => nodes)) ∧
    ((Query.after parse d nodes input attributes).map (fun r => r.2)
      = (Query.after parse d nodes input attributes).map (fun _ => nodes)) ∧
    ((Query.append parse d nodes input attributes).map (fun r => r.2)
      = (Query.append parse d nodes input attributes).map (fun _ => nodes)) ∧
    ((Query.prepend parse d nodes input attributes).map (fun r => r.2)
      = (Query.prepend parse d nodes input attributes).map (fun _ => nodes)) ∧
    (Query.remove d nodes).2 = nodes ∧
    (Query.onEvent st nodes ev f options).2 = nodes ∧
    (Query.off st nodes ev f options).2 = nodes ∧
    (Query.one st nodes ev h options).2 = nodes :=
  ⟨rfl, rfl, rfl, ⟨_, rfl⟩, ⟨_, rfl⟩, ⟨_, rfl⟩,
    exceptMap_snd_eq _, exceptMap_snd_eq _, exceptMap_snd_eq _, exceptMap_snd_eq _,
    rfl, rfl, rfl, rfl⟩

/-- C5 counterexample: on a parentless element, `before`/`after` are not
no-ops — evaluating the code on the single parentless `<div>` (id 0),
the tag-name branch hits `null.insertBefore` (a `TypeError`) and the
markup branch propagates the host's `NoModificationAllowedError`; no
branch returns the collection. -/
theorem c5_parentless_not_noop_counterexample :
    Query.before parseNothing parentlessDom [0] (.str "span") none
        = .error .typeError ∧
    Query.after parseNothing parentlessDom [0] (.str "span") none
        = .error .typeError ∧
    Query.before (fun _ => [{ tag := "b", text := "hi" }]) parentlessDom [0]
        (.str "<b>hi</b>") none = .error .noModificationAllowed ∧
    Query.after (fun _ => [{ tag := "b", text := "hi" }]) parentlessDom [0]
        (.str "<b>hi</b>") none = .error .noModificationAllowed :=
  ⟨rfl, rfl, rfl, rfl⟩

/-- C5 amended: for an element that currently has no parent, `before`
and `after` raise an error in both the markup-string and the tag-name
branch (the host's `NoModificationAllowedError` from
`insertAdjacentHTML('beforebegin'/'afterend')`, and a `TypeError` from
calling `insertBefore` on the null `parentNode`, respectively) instead
of silently skipping the element and returning the collection. -/
theorem c5_parentless_before_after_raise (parse : String → List Tmpl) (d : Dom)
    (node : Nat) (s : String) (attributes : Option (List (String × JSVal)))
    (hpar : d.parentOf node = none) :
    (∃ e, Query.before parse d [node] (.str s) attributes = .error e) ∧
    (∃ e, Query.after parse d [node] (.str s) attributes = .error e) := by
  have hd2 : ∀ tagName : String,
      (Query.setAttributesLoop (d.createElement tagName).1 (d.createElement tagName).2
        attributes).parentOf node = none := by
    intro tagName
    rw [parentOf_setAttributesLoop]
    exact parentOf_createElement_of_none d tagName node hpar
  constructor
  · by_cases hh : Query.isHTMLString (.str s) = true
    · refine ⟨.noModificationAllowed, ?_⟩
      simp [Query.before, Query.beforeStep, List.foldlM, hh, Dom.insertAdjacentHTML, hpar, Except.map]
    · refine ⟨.typeError, ?_⟩
      simp [Query.before, Query.beforeStep, List.foldlM, hh, hd2 s, Except.map]
  · by_cases hh : Query.isHTMLString (.str s) = true
    · refine ⟨.noModificationAllowed, ?_⟩
      simp [Query.after, Query.afterStep, List.foldlM, hh, Dom.insertAdjacentHTML, hpar, Except.map]
    · refine ⟨.typeError, ?_⟩
      simp [Query.after, Query.afterStep, List.foldlM, hh, hd2 s, Except.map]

/-- C5 witness: the amended statement applied at the concrete parentless
`<div>` with a tag-name input. -/
theorem c5_witness :
    parentlessDom.parentOf 0 = none ∧
    ((∃ e, Query.before parseNothing parentlessDom [0] (.str "div") none = .error e) ∧
      (∃ e, Query.after parseNothing parentlessDom [0] (.str "div") none = .error e)) :=
  ⟨rfl, c5_parentless_before_after_raise parseNothing parentlessDom 0 "div" none rfl⟩

/-- C8: on a (non-empty) single-element collection, `attr(name, value)`
followed by `attr(name)` reads back the stringified value. -/
theorem c8_attr_write_read_round_trip (d : Dom) (e : Nat) (a : String) (v : JSVal)
    (he : (d.map e).isSome = true) :
    ∃ d1, Query.attr d [e] a (some v) = .chain d1 [e] ∧
      Query.attr d1 [e] a none = .value (some v.toJsString) := by
  refine ⟨d.setAttribute e a v.toJsString, rfl, ?_⟩
  show Query.GetSet.value ((d.setAttribute e a v.toJsString).getAttribute e a) = _
  rw [Dom.getAttribute_setAttribute_same d e a v.toJsString he]

/-- C8 witness: the round trip at the concrete single `<div>` with the
numeric value 5, read back as the string "5". -/
theorem c8_witness :
    (parentlessDom.map 0).isSome = true ∧
    ∃ d1, Query.attr parentlessDom [0] "x" (some (.num 5)) = .chain d1 [0] ∧
      Query.attr d1 [0] "x" none = .value (some (JSVal.num 5).toJsString) :=
  ⟨rfl, c8_attr_write_read_round_trip parentlessDom 0 "x" (.num 5) rfl⟩

/-- C10: on a non-empty collection, `attr`'s read/write dispatch is
decided exactly by `value !== undefined`: every defined value — in
particular `null` — enters write mode, stringifying the value (null sets
the string "null") on every element and returning the collection, while
only an absent/undefined value reads (returning a `value` result, namely
the first element's attribute). -/
theorem c10_attr_dispatch_by_undefined (d : Dom) (nodes : List Nat) (a : String)
    (hne : nodes ≠ []) (hex : ∀ m ∈ nodes, (d.map m).isSome = true) :
    (∀ v : JSVal, ∃ d1, Query.attr d nodes a (some v) = .chain d1 nodes ∧
      ∀ n ∈ nodes, d1.getAttribute n a = some v.toJsString) ∧
    (∃ d1, Query.attr d nodes a (some .null) = .chain d1 nodes ∧
      ∀ n ∈ nodes, d1.getAttribute n a = some "null") ∧
    (∀ n0 t, nodes = n0 :: t →
      Query.attr d nodes a none = .value (d.getAttribute n0 a)) := by
  have hw : ∀ v : JSVal, ∃ d1, Query.attr d nodes a (some v) = .chain d1 nodes ∧
      ∀ n ∈ nodes, d1.getAttribute n a = some v.toJsString := by
    intro v
    refine ⟨nodes.foldl (fun d node => d.setAttribute node a v.toJsString) d, rfl, ?_⟩
    intro n hn
    exact getAttribute_foldl_setAttribute a v.toJsString nodes d hn hex
  refine ⟨hw, hw JSVal.null, ?_⟩
  rintro n0 t rfl
  rfl

/-- C10 witness: the dispatch rule at the concrete two-`<div>` document
with attribute `x`. -/
theorem c10_witness :
    (([0, 1] : List Nat) ≠ []) ∧
    (∀ m ∈ ([0, 1] : List Nat), (twoDivDom.map m).isSome = true) ∧
    ((∀ v : JSVal, ∃ d1, Query.attr twoDivDom [0, 1] "x" (some v) = .chain d1 [0, 1] ∧
        ∀ n ∈ ([0, 1] : List Nat), d1.getAttribute n "x" = some v.toJsString) ∧
      (∃ d1, Query.attr twoDivDom [0, 1] "x" (some .null) = .chain d1 [0, 1] ∧
        ∀ n ∈ ([0, 1] : List Nat), d1.getAttribute n "x" = some "null") ∧
      (∀ n0 t, ([0, 1] : List Nat) = n0 :: t →
        Query.attr twoDivDom [0, 1] "x" none = .value (twoDivDom.getAttribute n0 "x"))) :=
  ⟨by decide, by decide,
    c10_attr_dispatch_by_undefined twoDivDom [0, 1] "x" (by decide) (by decide)⟩

/-! ## The insertion fan-out (claim C7) -/

theorem lt_nextId_of_isSome {d : Dom} (hwf : d.WF) {m : Nat}
    (h : (d.map m).isSome = true) : m < d.nextId := by
  by_contra hle
  rw [hwf m (Nat.le_of_not_lt hle)] at h
  simp at h

@[simp] theorem freshInsertStep_nextId (nd0 : NodeData) (d : Dom) (n : Nat) :
    (freshInsertStep nd0 d n).nextId = d.nextId + 1 := by
  simp only [freshInsertStep, Dom.insertBefore, Dom.nextId_modifyNode, Dom.nextId_addFresh]

theorem freshInsertStep_map (nd0 : NodeData) (d : Dom) (n : Nat) (nd : NodeData)
    (hn : d.map n = some nd) (hlt : n < d.nextId) (m : Nat) :
    (freshInsertStep nd0 d n).map m =
      if m = d.nextId then some { nd0 with parent := some n }
      else if m = n then some { nd with children := nd.children ++ [d.nextId] }
      else d.map m := by
  have hne : n ≠ d.nextId := Nat.ne_of_lt hlt
  unfold freshInsertStep Dom.insertBefore
  simp only [Dom.map_modifyNode, Dom.snd_addFresh, Dom.map_addFresh]
  by_cases h1 : m = d.nextId
  · subst h1
    simp [Ne.symm hne]
  · by_cases h2 : m = n
    · subst h2
      simp [h1, hne, hn, insertAt]
    · simp [h1, h2]

theorem foldlM_eq_ok_foldl {α : Type} (f : Dom → α → Except JSError Dom)
    (g : Dom → α → Dom) (hfg : ∀ d a, f d a = .ok (g d a)) :
    ∀ (l : List α) (d : Dom), l.foldlM f d = .ok (l.foldl g d) := by
  intro l
  induction l with
  | nil => intro d; rfl
  | cons a t ih =>
    intro d
    rw [List.foldlM_cons, hfg d a]
    show t.foldlM f (g d a) = _
    rw [ih (g d a), List.foldl_cons]

/-- The full fan-out of a fresh-node insertion step over a duplicate-free
collection of allocated nodes: the final document is well-formed, fresh
ids are `d.nextId, d.nextId + 1, …` in collection order, untouched nodes
keep their records, the i-th collection element gains exactly the i-th
fresh id as a new last child, and the i-th fresh node carries `nd0` with
the i-th element as parent. -/
theorem foldl_freshInsertStep_spec (nd0 : NodeData) :
    ∀ (nodes : List Nat) (d : Dom), d.WF → nodes.Nodup →
      (∀ n ∈ nodes, (d.map n).isSome = true) →
      (nodes.foldl (fun d node => freshInsertStep nd0 d node) d).WF ∧
      (nodes.foldl (fun d node => freshInsertStep nd0 d node) d).nextId
        = d.nextId + nodes.length ∧
      (∀ m, m ∉ nodes → m < d.nextId →
        (nodes.foldl (fun d node => freshInsertStep nd0 d node) d).map m = d.map m) ∧
      (∀ i, (hi : i < nodes.length) →
        (nodes.foldl (fun d node => freshInsertStep nd0 d node) d).map (d.nextId + i)
          = some { nd0 with parent := some (nodes.get ⟨i, hi⟩) } ∧
        ∀ ndi, d.map (nodes.get ⟨i, hi⟩) = some ndi →
          (nodes.foldl (fun d node => freshInsertStep nd0 d node) d).map (nodes.get ⟨i, hi⟩)
            = some { ndi with children := ndi.children ++ [d.nextId + i] }) := by
  intro nodes
  induction nodes with
  | nil =>
    intro d hwf _ _
    refine ⟨hwf, by simp, fun m _ _ => rfl, fun i hi => absurd hi (by simp)⟩
  | cons n rest ih =>
    intro d hwf hnodup hex
    obtain ⟨nd, hnd⟩ := Option.isSome_iff_exists.mp (hex n (List.mem_cons_self n rest))
    have hltn : n < d.nextId := lt_nextId_of_isSome hwf (by rw [hnd]; rfl)
    have hnotmem : n ∉ rest := (List.nodup_cons.mp hnodup).1
    have hrest_lt : ∀ m ∈ rest, m < d.nextId := fun m hm =>
      lt_nextId_of_isSome hwf (hex m (List.mem_cons_of_mem n hm))
    have hfresh_notmem : d.nextId ∉ rest := fun hmem =>
      absurd (hrest_lt _ hmem) (Nat.lt_irrefl _)
    set d1 := freshInsertStep nd0 d n with hd1
    have hmap1 : ∀ m, d1.map m =
        if m = d.nextId then some { nd0 with parent := some n }
        else if m = n then some { nd with children := nd.children ++ [d.nextId] }
        else d.map m := freshInsertStep_map nd0 d n nd hnd hltn
    have hnext1 : d1.nextId = d.nextId + 1 := freshInsertStep_nextId nd0 d n
    have hwf1 : d1.WF := by
      intro m hm
      rw [hnext1] at hm
      have ha : m ≠ d.nextId := by omega
      have hb : m ≠ n := by omega
      rw [hmap1 m, if_neg ha, if_neg hb]
      exact hwf m (by omega)
    have hex1 : ∀ m ∈ rest, (d1.map m).isSome = true := by
      intro m hm
      have ha : m ≠ d.nextId := by have := hrest_lt m hm; omega
      have hb : m ≠ n := fun h => hnotmem (h ▸ hm)
      rw [hmap1 m, if_neg ha, if_neg hb]
      exact hex m (List.mem_cons_of_mem n hm)
    obtain ⟨hwf2, hnext2, hframe2, hidx2⟩ := ih d1 hwf1 (List.nodup_cons.mp hnodup).2 hex1
    rw [List.foldl_cons]
    refine ⟨hwf2, ?_, ?_, ?_⟩
    · rw [hnext2, hnext1]
      simp only [List.length_cons]
      omega
    · intro m hm hmlt
      have hmrest : m ∉ rest := fun h => hm (List.mem_cons_of_mem n h)
      have hmn : m ≠ n := fun h => hm (h ▸ List.mem_cons_self n rest)
      have hmfresh : m ≠ d.nextId := by omega
      have hmlt1 : m < d1.nextId := by omega
      rw [hframe2 m hmrest hmlt1, hmap1 m, if_neg hmfresh, if_neg hmn]
    · intro i hi
      match i with
      | 0 =>
        constructor
        · have hlt1 : d.nextId < d1.nextId := by omega
          rw [Nat.add_zero, hframe2 d.nextId hfresh_notmem hlt1, hmap1 d.nextId, if_pos rfl]
          rfl
        · intro ndi hndi
          have hndi' : d.map n = some ndi := hndi
          have hndieq : ndi = nd := by
            rw [hnd] at hndi'
            exact (Option.some.inj hndi').symm
          subst hndieq
          have hlt1 : n < d1.nextId := by omega
          have hne1 : n ≠ d.nextId := Nat.ne_of_lt hltn
          show (rest.foldl (fun d node => freshInsertStep nd0 d node) d1).map n = _
          rw [hframe2 n hnotmem hlt1, hmap1 n, if_neg hne1, if_pos rfl, Nat.add_zero]
      | Nat.succ j =>
        have hj : j < rest.length := by
          simp only [List.length_cons] at hi
          omega
        obtain ⟨hfreshj, hchildj⟩ := hidx2 j hj
        have hshift : d1.nextId + j = d.nextId + (j + 1) := by omega
        constructor
        · show (rest.foldl (fun d node => freshInsertStep nd0 d node) d1).map
            (d.nextId + (j + 1)) = _
          rw [← hshift, hfreshj]
          rfl
        · intro ndi hndi
          have hgetmem : rest.get ⟨j, hj⟩ ∈ rest := List.get_mem rest j hj
          have hndi' : d.map (rest.get ⟨j, hj⟩) = some ndi := hndi
          have ha : rest.get ⟨j, hj⟩ ≠ d.nextId := by
            have := hrest_lt _ hgetmem; omega
          have hb : rest.get ⟨j, hj⟩ ≠ n := fun h => hnotmem (h ▸ hgetmem)
          have hd1get : d1.map (rest.get ⟨j, hj⟩) = some ndi := by
            rw [hmap1, if_neg ha, if_neg hb]
            exact hndi'
          have hres := hchildj ndi hd1get
          rw [hshift] at hres
          exact hres

/-- On the markup `"<span>x</span>"` (with a host parser producing the
single `span` fragment with text `x`), `append`'s loop body is exactly
one fresh-span insertion. -/
theorem appendStep_spanx (parse : String → List Tmpl)
    (hp : parse "<span>x</span>" = [{ tag := "span", text := "x" }]) (d : Dom) (node : Nat) :
    Query.appendStep parse (.str "<span>x</span>") none d node
      = .ok (freshInsertStep { tag := "span", attrs := [], text := "x" } d node) := by
  simp only [Query.appendStep]
  rw [if_pos (show Query.isHTMLString (.str "<span>x</span>") = true by decide)]
  unfold Dom.insertAdjacentHTML
  rw [hp]
  rfl

/-- On the tag-name input `"span"` with attributes `{id: "z"}`,
`append`'s loop body is exactly one fresh insertion of a `span` node
with attribute list `[("id", "z")]`. -/
theorem appendStep_tag_span_id (parse : String → List Tmpl) (d : Dom) (node : Nat) :
    Query.appendStep parse (.str "span") (some [("id", JSVal.str "z")]) d node
      = .ok (freshInsertStep { tag := "span", attrs := [("id", "z")] } d node) := by
  simp only [Query.appendStep]
  rw [if_neg (show ¬Query.isHTMLString (.str "span") = true by decide)]
  have hdom : Query.setAttributesLoop (d.createElement "span").1 (d.createElement "span").2
      (some [("id", JSVal.str "z")])
      = (d.addFresh { tag := "span", attrs := [("id", "z")] }).1 := by
    apply Dom.eq_of
    · intro m
      show (((d.createElement "span").1).setAttribute d.nextId "id" "z").map m = _
      rw [Dom.map_setAttribute]
      by_cases hm : m = d.nextId
      · subst hm
        simp [Dom.createElement, setKV]
      · simp [Dom.createElement, hm]
    · show (((d.createElement "span").1).setAttribute d.nextId "id" "z").nextId = _
      rw [Dom.nextId_setAttribute]
      rfl
  show Except.ok (Dom.appendChild _ node (d.createElement "span").2) = _
  rw [hdom]
  rfl

/-- `append("<span>x</span>")` succeeds and equals the fresh-span
fan-out fold. -/
theorem append_spanx_eq (parse : String → List Tmpl)
    (hp : parse "<span>x</span>" = [{ tag := "span", text := "x" }]) (d : Dom)
    (nodes : List Nat) :
    Query.append parse d nodes (.str "<span>x</span>") none
      = .ok (nodes.foldl (fun d node =>
          freshInsertStep { tag := "span", attrs := [], text := "x" } d node) d, nodes) := by
  unfold Query.append
  rw [foldlM_eq_ok_foldl (Query.appendStep parse (.str "<span>x</span>") none)
    (fun d node => freshInsertStep { tag := "span", attrs := [], text := "x" } d node)
    (appendStep_spanx parse hp) nodes d]
  rfl

/-- `append("span", {id: "z"})` succeeds and equals the fresh-span
fan-out fold. -/
theorem append_tag_span_id_eq (parse : String → List Tmpl) (d : Dom) (nodes : List Nat) :
    Query.append parse d nodes (.str "span") (some [("id", JSVal.str "z")])
      = .ok (nodes.foldl (fun d node =>
          freshInsertStep { tag := "span", attrs := [("id", "z")] } d node) d, nodes) := by
  unfold Query.append
  rw [foldlM_eq_ok_foldl (Query.appendStep parse (.str "span") (some [("id", JSVal.str "z")]))
    (fun d node => freshInsertStep { tag := "span", attrs := [("id", "z")] } d node)
    (appendStep_tag_span_id parse) nodes d]
  rfl

/-- C7: on an N-element collection (distinct, allocated nodes),
`append("<span>x</span>")` gives each element exactly one new last child
— a fresh `span` with text `x` — and `append("span", {id: "z"})` creates
N distinct fresh `span` elements (the i-th collection element gains
exactly the i-th fresh id as its new last child), each carrying
`id="z"`, and mutating one fresh element's attributes afterwards leaves
every other one's attributes unchanged. -/
theorem c7_append_markup_and_tag (parse : String → List Tmpl) (d : Dom)
    (nodes : List Nat) (hwf : d.WF) (hnodup : nodes.Nodup)
    (hex : ∀ n ∈ nodes, (d.map n).isSome = true)
    (hp : parse "<span>x</span>" = [{ tag := "span", text := "x" }]) :
    (∃ d1, Query.append parse d nodes (.str "<span>x</span>") none = .ok (d1, nodes) ∧
      ∀ i, (hi : i < nodes.length) →
        d1.childrenOf (nodes.get ⟨i, hi⟩)
          = d.childrenOf (nodes.get ⟨i, hi⟩) ++ [d.nextId + i] ∧
        d1.tagOf (d.nextId + i) = "span" ∧ d1.textOf (d.nextId + i) = "x") ∧
    (∃ d2, Query.append parse d nodes (.str "span") (some [("id", JSVal.str "z")])
        = .ok (d2, nodes) ∧
      (∀ i, (hi : i < nodes.length) →
        d2.childrenOf (nodes.get ⟨i, hi⟩)
          = d.childrenOf (nodes.get ⟨i, hi⟩) ++ [d.nextId + i] ∧
        d2.getAttribute (d.nextId + i) "id" = some "z") ∧
      ∀ i j k v a, i ≠ j →
        (d2.setAttribute (d.nextId + i) k v).getAttribute (d.nextId + j) a
          = d2.getAttribute (d.nextId + j) a) := by
  constructor
  · refine ⟨_, append_spanx_eq parse hp d nodes, ?_⟩
    obtain ⟨-, -, -, hidx⟩ :=
      foldl_freshInsertStep_spec { tag := "span", attrs := [], text := "x" } nodes d
        hwf hnodup hex
    intro i hi
    obtain ⟨hfresh, hchild⟩ := hidx i hi
    obtain ⟨ndi, hndi⟩ := Option.isSome_iff_exists.mp (hex _ (List.get_mem nodes i hi))
    refine ⟨?_, ?_, ?_⟩
    · unfold Dom.childrenOf
      rw [hchild ndi hndi, hndi]
    · unfold Dom.tagOf
      rw [hfresh]
    · unfold Dom.textOf
      rw [hfresh]
  · refine ⟨_, append_tag_span_id_eq parse d nodes, ?_, ?_⟩
    · obtain ⟨-, -, -, hidx⟩ :=
        foldl_freshInsertStep_spec { tag := "span", attrs := [("id", "z")] } nodes d
          hwf hnodup hex
      intro i hi
      obtain ⟨hfresh, hchild⟩ := hidx i hi
      obtain ⟨ndi, hndi⟩ := Option.isSome_iff_exists.mp (hex _ (List.get_mem nodes i hi))
      refine ⟨?_, ?_⟩
      · unfold Dom.childrenOf
        rw [hchild ndi hndi, hndi]
      · unfold Dom.getAttribute
        rw [hfresh]
        rfl
    · intro i j k v a hij
      exact Dom.getAttribute_setAttribute_ne _ _ k v (by omega) a

/-- C7 witness: the append behaviour instantiated at the concrete
two-`<div>` document and the `"<span>x</span>"` parser. -/
theorem c7_witness :
    (∃ d1, Query.append parseSpanX twoDivDom [0, 1] (.str "<span>x</span>") none
        = .ok (d1, [0, 1]) ∧
      ∀ i, (hi : i < ([0, 1] : List Nat).length) →
        d1.childrenOf (([0, 1] : List Nat).get ⟨i, hi⟩)
          = twoDivDom.childrenOf (([0, 1] : List Nat).get ⟨i, hi⟩)
            ++ [twoDivDom.nextId + i] ∧
        d1.tagOf (twoDivDom.nextId + i) = "span" ∧
        d1.textOf (twoDivDom.nextId + i) = "x") ∧
    (∃ d2, Query.append parseSpanX twoDivDom [0, 1] (.str "span")
          (some [("id", JSVal.str "z")]) = .ok (d2, [0, 1]) ∧
      (∀ i, (hi : i < ([0, 1] : List Nat).length) →
        d2.childrenOf (([0, 1] : List Nat).get ⟨i, hi⟩)
          = twoDivDom.childrenOf (([0, 1] : List Nat).get ⟨i, hi⟩)
            ++ [twoDivDom.nextId + i] ∧
        d2.getAttribute (twoDivDom.nextId + i) "id" = some "z") ∧
      ∀ i j k v a, i ≠ j →
        (d2.setAttribute (twoDivDom.nextId + i) k v).getAttribute
            (twoDivDom.nextId + j) a
          = d2.getAttribute (twoDivDom.nextId + j) a) :=
  c7_append_markup_and_tag parseSpanX twoDivDom [0, 1]
    (fun n hn => by
      have hn2 : 2 ≤ n := hn
      show (if n = 0 ∨ n = 1 then some ({ tag := "DIV" } : NodeData) else none) = none
      rw [if_neg (by omega)])
    (by decide)
    (by decide)
    (by decide)

/-- C4 witness: the refinement evaluated on the concrete three-control
form collection. -/
theorem c4_witness :
    Query.serialize [exTextInput, exCheckbox, exRadio]
      = String.intercalate "&" ((Query.serializeArray [exTextInput, exCheckbox, exRadio]).map
          (fun p => encodeURIComponent p.name ++ "=" ++ encodeURIComponent p.value)) :=
  c4_serialize_refines_serializeArray [exTextInput, exCheckbox, exRadio]

/-- C6 witness: empty-collection safety at a concrete document. -/
theorem c6_witness :
    Query.attr parentlessDom [] "x" none = .value none ∧
    Query.addClass parentlessDom [] "y" = (parentlessDom, []) := by
  have h := c6_empty_collection_safety parentlessDom oneShotInit parseNothing "x" "y" "s"
    "click" (.str "span") none .null (.user 7) 7 none
  exact ⟨h.1, h.2.2.1⟩

/-- C9 witness: membership preservation at a concrete document and
collection. -/
theorem c9_witness :
    (Query.addClass parentlessDom [1, 2] "y").2 = [1, 2] ∧
    (Query.remove parentlessDom [1, 2]).2 = [1, 2] := by
  have h := c9_membership_immutable parentlessDom oneShotInit parseNothing [1, 2] "x" "y"
    "s" "click" (.str "span") none .null (.user 7) 7 none
  exact ⟨h.1, h.2.2.2.2.2.2.2.2.2.2.1⟩
